import Mathlib

/-!
Verification of the term-normalization utility (`scripts/normalize_terms.py`).

The module maps auto-loan terms (months, Python `int`) to the nearest member
of the fixed industry-standard set `[36, 48, 60, 72, 84]`, normalizes ranges,
and rewrites rate records (Python `dict`) with normalized bounds and a label.

Embedding choices:
* Python `int` is `Int`; `abs` distances are `Int.natAbs` values (`Nat`).
* A raised Python exception is an `Except` error carrying the exception kind
  (`ValueError` / `TypeError`) and the exact message string built by the code.
* A rate record (Python `dict`) is an association list `List (String × Value)`
  with first-match lookup; `dict` assignment replaces the first matching key in
  place or appends at the end, matching Python insertion-order semantics.
-/

namespace NormalizeTerms

/-- A Python exception as raised by the module: the code raises `ValueError`
with a message in every validation failure; `TypeError` models the interpreter
error when a term field holds a non-integer value. -/
inductive PyErr where
  | valueError (msg : String)
  | typeError (msg : String)
deriving DecidableEq, Repr

/-- A value stored in a rate-record field: the term fields hold integers, all
other fields are opaque payloads modelled as strings. -/
inductive Value where
  | vint (n : Int)
  | vstr (s : String)
deriving DecidableEq, Repr

/-- A rate record: a Python `dict` as an insertion-ordered association list. -/
abbrev Record := List (String × Value)

/-- `INDUSTRY_STANDARD_TERMS = [36, 48, 60, 72, 84]` (module constant). -/
def INDUSTRY_STANDARD_TERMS : List Int := [36, 48, 60, 72, 84]

/-- One iteration of the `for standard_term in INDUSTRY_STANDARD_TERMS` loop in
`normalize_term_to_standard`: `acc` is `(nearest_term, min_distance)`. -/
def scanStep (term : Int) (acc : Int × Nat) (standard_term : Int) : Int × Nat :=
  let distance := (term - standard_term).natAbs
  if distance < acc.2 then (standard_term, distance)
  else if distance = acc.2 then (min acc.1 standard_term, acc.2)
  else acc

/-- `normalize_term_to_standard(term)`: `0` maps to the first standard term;
negative terms raise `ValueError`; otherwise a linear scan tracks the standard
term at minimum absolute distance, ties keeping the smaller candidate. -/
def normalize_term_to_standard (term : Int) : Except PyErr Int :=
  if term = 0 then .ok (INDUSTRY_STANDARD_TERMS.headD 0)
  else if term < 0 then
    .error (.valueError ("Invalid term: " ++ toString term ++
      ". Term must be a non-negative number."))
  else
    .ok ((INDUSTRY_STANDARD_TERMS.foldl (scanStep term)
      (INDUSTRY_STANDARD_TERMS.headD 0,
       (term - INDUSTRY_STANDARD_TERMS.headD 0).natAbs)).1)

/-- `normalize_term_range(term_min, term_max)`: raises `ValueError` when
`min > max`, otherwise normalizes both ends (left end first, so its exception
wins, as in Python tuple evaluation order). -/
def normalize_term_range (term_min term_max : Int) : Except PyErr (Int × Int) :=
  if term_min > term_max then
    .error (.valueError ("Invalid range: min (" ++ toString term_min ++
      ") > max (" ++ toString term_max ++ ")"))
  else
    match normalize_term_to_standard term_min,
          normalize_term_to_standard term_max with
    | .ok a, .ok b => .ok (a, b)
    | .error e, _ => .error e
    | .ok _, .error e => .error e

/-- `is_standard_term(term)`: membership test `term in INDUSTRY_STANDARD_TERMS`. -/
def is_standard_term (term : Int) : Bool :=
  INDUSTRY_STANDARD_TERMS.contains term

/-- The dictionary returned by `get_term_normalization_info`. -/
structure NormInfo where
  original : Int
  normalized : Int
  distance : Nat
  wasModified : Bool
deriving DecidableEq, Repr

/-- `get_term_normalization_info(term)`: wraps the normalizer, reporting the
original value, normalized value, absolute distance and whether they differ. -/
def get_term_normalization_info (term : Int) : Except PyErr NormInfo :=
  match normalize_term_to_standard term with
  | .error e => .error e
  | .ok normalized =>
      .ok ⟨term, normalized, (term - normalized).natAbs, term != normalized⟩

/-- First-match lookup `d[k]` / `d.get(k)` on the association-list dict. -/
def lookup : Record → String → Option Value
  | [], _ => none
  | (k', v') :: rest, k => if k' = k then some v' else lookup rest k

/-- Python `k in d`. -/
def containsKey (r : Record) (k : String) : Bool :=
  (lookup r k).isSome

/-- Python `d[k] = v` on the copied dict: replace the first matching key in
place, else append the new pair at the end (insertion order). -/
def setKey : Record → String → Value → Record
  | [], k, v => [(k, v)]
  | (k', v') :: rest, k, v =>
      if k' = k then (k, v) :: rest else (k', v') :: setKey rest k v

/-- The `term_label` f-string: `"{min} Months"` when the bounds agree, else
`"{min}-{max} Months"`. -/
def term_label_of (term_min term_max : Int) : String :=
  if term_min = term_max then toString term_min ++ " Months"
  else toString term_min ++ "-" ++ toString term_max ++ " Months"

/-- The three assignments at the end of `normalize_rate_terms`, applied to the
copy of the input record. -/
def addTermFields (result : Record) (term_min term_max : Int) : Record :=
  setKey (setKey (setKey result "term_range_min" (.vint term_min))
      "term_range_max" (.vint term_max))
    "term_label" (.vstr (term_label_of term_min term_max))

/-- The `ValueError` message raised by `normalize_rate_terms` when no usable
term field is present. -/
def missingFieldMessage : String :=
  "Rate data must include either termMonths or termMin/termMax"

/-- `normalize_rate_terms(rate_data)`: dispatch on `termMonths`, then on the
`termMin`/`termMax` pair, else raise; on success return a copy of the input
with `term_range_min`, `term_range_max` and `term_label` set. A term field
holding a non-integer raises `TypeError` inside the comparison, as in Python. -/
def normalize_rate_terms (rate_data : Record) : Except PyErr Record :=
  if containsKey rate_data "termMonths" then
    match lookup rate_data "termMonths" with
    | some (.vint n) =>
        match normalize_term_to_standard n with
        | .ok normalized => .ok (addTermFields rate_data normalized normalized)
        | .error e => .error e
    | _ => .error (.typeError "comparison not supported between str and int")
  else if containsKey rate_data "termMin" && containsKey rate_data "termMax" then
    match lookup rate_data "termMin", lookup rate_data "termMax" with
    | some (.vint a), some (.vint b) =>
        match normalize_term_range a b with
        | .ok (tmin, tmax) => .ok (addTermFields rate_data tmin tmax)
        | .error e => .error e
    | _, _ => .error (.typeError "comparison not supported between str and int")
  else .error (.valueError missingFieldMessage)

/-! ### Closed form of the normalizer -/

/-- Closed form of `normalize_term_to_standard` on non-negative input:
interval thresholds sit at the tie points 42, 54, 66, 78, each tie resolved
down. -/
def normClosed (t : Int) : Int :=
  if t ≤ 42 then 36
  else if t ≤ 54 then 48
  else if t ≤ 66 then 60
  else if t ≤ 78 then 72
  else 84

theorem normalize_eq_closed (t : Int) (ht : 0 ≤ t) :
    normalize_term_to_standard t = .ok (normClosed t) := by
  rcases le_or_lt t 84 with h84 | h84
  · interval_cases t <;> rfl
  · have ht0 : ¬t = 0 := by omega
    have htneg : ¬t < 0 := by omega
    have s1 : scanStep t (36, (t - 36).natAbs) 36 = (36, (t - 36).natAbs) := by
      simp [scanStep]
    have s2 : scanStep t (36, (t - 36).natAbs) 48 = (48, (t - 48).natAbs) := by
      have hlt : (t - 48).natAbs < (t - 36).natAbs := by omega
      simp [scanStep, hlt]
    have s3 : scanStep t (48, (t - 48).natAbs) 60 = (60, (t - 60).natAbs) := by
      have hlt : (t - 60).natAbs < (t - 48).natAbs := by omega
      simp [scanStep, hlt]
    have s4 : scanStep t (60, (t - 60).natAbs) 72 = (72, (t - 72).natAbs) := by
      have hlt : (t - 72).natAbs < (t - 60).natAbs := by omega
      simp [scanStep, hlt]
    have s5 : scanStep t (72, (t - 72).natAbs) 84 = (84, (t - 84).natAbs) := by
      have hlt : (t - 84).natAbs < (t - 72).natAbs := by omega
      simp [scanStep, hlt]
    have hclosed : normClosed t = 84 := by
      unfold normClosed
      split_ifs <;> omega
    unfold normalize_term_to_standard
    rw [if_neg ht0, if_neg htneg, hclosed]
    simp only [INDUSTRY_STANDARD_TERMS, List.headD, List.foldl_cons,
      List.foldl_nil, s1, s2, s3, s4, s5]

theorem normClosed_mem (t : Int) : normClosed t ∈ INDUSTRY_STANDARD_TERMS := by
  unfold normClosed INDUSTRY_STANDARD_TERMS
  split_ifs <;> simp

theorem normClosed_mono {a b : Int} (h : a ≤ b) : normClosed a ≤ normClosed b := by
  unfold normClosed
  split_ifs <;> omega

theorem norm_fixed_point (t : Int) (ht : t ∈ INDUSTRY_STANDARD_TERMS) :
    normalize_term_to_standard t = .ok t := by
  have h0 : (0 : Int) ≤ t := by
    simp only [INDUSTRY_STANDARD_TERMS, List.mem_cons, List.not_mem_nil,
      or_false] at ht
    omega
  rw [normalize_eq_closed t h0]
  simp only [INDUSTRY_STANDARD_TERMS, List.mem_cons, List.not_mem_nil,
    or_false] at ht
  rcases ht with h | h | h | h | h <;> subst h <;> rfl

theorem norm_ok_of_nonneg (t : Int) (ht : 0 ≤ t) :
    ∃ m, normalize_term_to_standard t = .ok m := ⟨normClosed t, normalize_eq_closed t ht⟩

theorem norm_error_of_neg (t : Int) (ht : t < 0) :
    normalize_term_to_standard t =
      .error (.valueError ("Invalid term: " ++ toString t ++
        ". Term must be a non-negative number.")) := by
  have h0 : ¬t = 0 := by omega
  unfold normalize_term_to_standard
  rw [if_neg h0, if_pos ht]

theorem norm_error_shape (t : Int) (e : PyErr)
    (h : normalize_term_to_standard t = .error e) :
    t < 0 ∧ e = .valueError ("Invalid term: " ++ toString t ++
      ". Term must be a non-negative number.") := by
  by_cases h0 : t = 0
  · subst h0; simp [normalize_term_to_standard] at h
  by_cases hneg : t < 0
  · refine ⟨hneg, ?_⟩
    rw [norm_error_of_neg t hneg] at h
    exact (Except.error.inj h).symm
  · exfalso
    have := normalize_eq_closed t (by omega)
    rw [this] at h
    exact Except.noConfusion h

theorem range_ok_of_valid (a b : Int) (h0 : 0 ≤ a) (hab : a ≤ b) :
    normalize_term_range a b = .ok (normClosed a, normClosed b) := by
  unfold normalize_term_range
  rw [if_neg (by omega)]
  rw [normalize_eq_closed a h0, normalize_eq_closed b (by omega)]

theorem range_error_shape (a b : Int) (e : PyErr)
    (h : normalize_term_range a b = .error e) :
    (∃ s : String, e = .valueError ("Invalid range: min (" ++ s)) ∨
    (∃ t : Int, e = .valueError ("Invalid term: " ++ toString t ++
      ". Term must be a non-negative number.")) := by
  unfold normalize_term_range at h
  split_ifs at h with hba
  · left
    refine ⟨toString a ++ ") > max (" ++ toString b ++ ")", ?_⟩
    have := (Except.error.inj h).symm
    rw [this]
    simp [String.append_assoc]
  · right
    rcases hna : normalize_term_to_standard a with ea | na <;>
      rcases hnb : normalize_term_to_standard b with eb | nb <;>
      rw [hna, hnb] at h
    · exact ⟨a, by rw [← (Except.error.inj h)]; exact (norm_error_shape a ea hna).2⟩
    · exact ⟨a, by rw [← (Except.error.inj h)]; exact (norm_error_shape a ea hna).2⟩
    · exact ⟨b, by rw [← (Except.error.inj h)]; exact (norm_error_shape b eb hnb).2⟩
    · exact Except.noConfusion h

/-! ### Dictionary lemmas -/

theorem lookup_setKey_self (r : Record) (k : String) (v : Value) :
    lookup (setKey r k v) k = some v := by
  induction r with
  | nil => simp [setKey, lookup]
  | cons p rest ih =>
      obtain ⟨k', v'⟩ := p
      by_cases h : k' = k
      · simp [setKey, h, lookup]
      · simp [setKey, h, lookup, ih]

theorem lookup_setKey_ne (r : Record) (k k' : String) (v : Value) (h : k' ≠ k) :
    lookup (setKey r k v) k' = lookup r k' := by
  induction r with
  | nil => simp [setKey, lookup, h.symm]
  | cons p rest ih =>
      obtain ⟨k'', v''⟩ := p
      by_cases hk : k'' = k
      · subst hk
        simp [setKey, lookup, h.symm]
      · by_cases hk' : k'' = k'
        · subst hk'
          simp [setKey, hk, lookup]
        · simp [setKey, hk, lookup, hk', ih]

theorem containsKey_of_lookup (r : Record) (k : String) (v : Value)
    (h : lookup r k = some v) : containsKey r k = true := by
  simp [containsKey, h]

theorem lookup_addTermFields_min (r : Record) (x y : Int) :
    lookup (addTermFields r x y) "term_range_min" = some (.vint x) := by
  unfold addTermFields
  rw [lookup_setKey_ne _ _ _ _ (by decide), lookup_setKey_ne _ _ _ _ (by decide),
    lookup_setKey_self]

theorem lookup_addTermFields_max (r : Record) (x y : Int) :
    lookup (addTermFields r x y) "term_range_max" = some (.vint y) := by
  unfold addTermFields
  rw [lookup_setKey_ne _ _ _ _ (by decide), lookup_setKey_self]

theorem lookup_addTermFields_label (r : Record) (x y : Int) :
    lookup (addTermFields r x y) "term_label" = some (.vstr (term_label_of x y)) := by
  unfold addTermFields
  rw [lookup_setKey_self]

theorem lookup_addTermFields_frame (r : Record) (x y : Int) (k : String)
    (h1 : k ≠ "term_range_min") (h2 : k ≠ "term_range_max")
    (h3 : k ≠ "term_label") :
    lookup (addTermFields r x y) k = lookup r k := by
  unfold addTermFields
  rw [lookup_setKey_ne _ _ _ _ h3, lookup_setKey_ne _ _ _ _ h2,
    lookup_setKey_ne _ _ _ _ h1]

/-! ### The two validation messages differ from the missing-field message -/

theorem invalid_term_msg_ne_missing (s : String) :
    "Invalid term: " ++ s ++ ". Term must be a non-negative number." ≠
      missingFieldMessage := by
  intro h
  have h2 := congrArg String.data h
  rw [String.data_append, String.data_append] at h2
  have h3 : ("Invalid term: " : String).data =
      'I' :: ("nvalid term: " : String).data := rfl
  have h4 : missingFieldMessage.data =
      'R' :: ("ate data must include either termMonths or termMin/termMax" :
        String).data := rfl
  rw [h3, h4, List.cons_append, List.cons_append] at h2
  injection h2 with h5 _
  exact absurd h5 (by decide)

theorem invalid_range_msg_ne_missing (s : String) :
    "Invalid range: min (" ++ s ≠ missingFieldMessage := by
  intro h
  have h2 := congrArg String.data h
  rw [String.data_append] at h2
  have h3 : ("Invalid range: min (" : String).data =
      'I' :: ("nvalid range: min (" : String).data := rfl
  have h4 : missingFieldMessage.data =
      'R' :: ("ate data must include either termMonths or termMin/termMax" :
        String).data := rfl
  rw [h3, h4, List.cons_append] at h2
  injection h2 with h5 _
  exact absurd h5 (by decide)

theorem range_error_ne_missing (a b : Int) (e : PyErr)
    (h : normalize_term_range a b = .error e) :
    e ≠ .valueError missingFieldMessage := by
  intro he
  subst he
  rcases range_error_shape a b _ h with ⟨s, hs⟩ | ⟨t, ht⟩
  · exact invalid_range_msg_ne_missing s (PyErr.valueError.inj hs).symm
  · exact invalid_term_msg_ne_missing (toString t) (PyErr.valueError.inj ht).symm

theorem term_error_ne_missing (t : Int) (e : PyErr)
    (h : normalize_term_to_standard t = .error e) :
    e ≠ .valueError missingFieldMessage := by
  intro he
  subst he
  exact invalid_term_msg_ne_missing (toString t)
    (PyErr.valueError.inj (norm_error_shape t _ h).2).symm

/-! ### Claims -/

/-- C1: for every integer term > 0, `normalize_term_to_standard` returns the
standard term at the global minimum absolute distance, and when several
candidates tie at that minimum it returns the smallest of them. -/
theorem C1_nearest_with_tie_break (term : Int) (h : 0 < term) :
    ∃ c, normalize_term_to_standard term = .ok c ∧
      c ∈ INDUSTRY_STANDARD_TERMS ∧
      (∀ d ∈ INDUSTRY_STANDARD_TERMS, (term - c).natAbs ≤ (term - d).natAbs) ∧
      (∀ d ∈ INDUSTRY_STANDARD_TERMS,
        (term - d).natAbs = (term - c).natAbs → c ≤ d) := by
  refine ⟨normClosed term, normalize_eq_closed term (le_of_lt h),
    normClosed_mem term, ?_, ?_⟩
  · simp only [INDUSTRY_STANDARD_TERMS, List.mem_cons, List.not_mem_nil,
      or_false, forall_eq_or_imp, forall_eq]
    unfold normClosed
    split_ifs <;> omega
  · simp only [INDUSTRY_STANDARD_TERMS, List.mem_cons, List.not_mem_nil,
      or_false, forall_eq_or_imp, forall_eq]
    unfold normClosed
    split_ifs <;> omega

/-- Witness for C1 at the tie point 42 (ties 36 and 48, returns 36). -/
theorem C1_nearest_with_tie_break_witness :
    ∃ c, normalize_term_to_standard 42 = .ok c ∧
      c ∈ INDUSTRY_STANDARD_TERMS ∧
      (∀ d ∈ INDUSTRY_STANDARD_TERMS, ((42:Int) - c).natAbs ≤ ((42:Int) - d).natAbs) ∧
      (∀ d ∈ INDUSTRY_STANDARD_TERMS,
        ((42:Int) - d).natAbs = ((42:Int) - c).natAbs → c ≤ d) :=
  C1_nearest_with_tie_break 42 (by decide)

/-- C3: the normalizer is monotone non-decreasing on non-negative inputs, and
consequently `normalize_term_range` under its precondition returns a pair with
`normalized_min ≤ normalized_max`. -/
theorem C3_monotone :
    (∀ a b x y : Int, 0 ≤ a → a ≤ b →
       normalize_term_to_standard a = .ok x →
       normalize_term_to_standard b = .ok y → x ≤ y) ∧
    (∀ a b : Int, ∀ p : Int × Int, 0 ≤ a → a ≤ b →
       normalize_term_range a b = .ok p → p.1 ≤ p.2) := by
  constructor
  · intro a b x y h0 hab hx hy
    rw [normalize_eq_closed a h0] at hx
    rw [normalize_eq_closed b (by omega)] at hy
    rw [← Except.ok.inj hx, ← Except.ok.inj hy]
    exact normClosed_mono hab
  · intro a b p h0 hab hp
    rw [range_ok_of_valid a b h0 hab] at hp
    rw [← Except.ok.inj hp]
    exact normClosed_mono hab

/-- Witness for C3 at (37, 66): normalize 37 = 36 ≤ 60 = normalize 66. -/
theorem C3_monotone_witness :
    (36 : Int) ≤ 60 ∧ ((36, 60) : Int × Int).1 ≤ ((36, 60) : Int × Int).2 :=
  ⟨C3_monotone.1 37 66 36 60 (by decide) (by decide) rfl rfl,
   C3_monotone.2 37 66 (36, 60) (by decide) (by decide) rfl⟩

/-- C4: `normalize_term_to_standard` raises `ValueError` exactly on negative
terms; `normalize_term_range` raises `ValueError` when min > max and returns
normally whenever 0 ≤ min ≤ max (equal bounds valid); the normalizer returns
normally on every non-negative term. -/
theorem C4_invalid_argument :
    (∀ t : Int,
      (∃ msg, normalize_term_to_standard t = .error (.valueError msg)) ↔ t < 0) ∧
    (∀ a b : Int, b < a →
      ∃ msg, normalize_term_range a b = .error (.valueError msg)) ∧
    (∀ a b : Int, 0 ≤ a → a ≤ b → ∃ p, normalize_term_range a b = .ok p) ∧
    (∀ t : Int, 0 ≤ t → ∃ m, normalize_term_to_standard t = .ok m) := by
  refine ⟨?_, ?_, ?_, ?_⟩
  · intro t
    constructor
    · rintro ⟨msg, hm⟩
      exact (norm_error_shape t _ hm).1
    · intro ht
      exact ⟨_, norm_error_of_neg t ht⟩
  · intro a b hba
    refine ⟨"Invalid range: min (" ++ toString a ++ ") > max (" ++ toString b ++ ")", ?_⟩
    unfold normalize_term_range
    rw [if_pos (by omega)]
  · intro a b h0 hab
    exact ⟨_, range_ok_of_valid a b h0 hab⟩
  · exact norm_ok_of_nonneg

/-- Witness for C4: -1 fails, (10,5) fails, (36,36) and 5 succeed. -/
theorem C4_invalid_argument_witness :
    (∃ msg, normalize_term_to_standard (-1) = .error (.valueError msg)) ∧
    (∃ msg, normalize_term_range 10 5 = .error (.valueError msg)) ∧
    (∃ p, normalize_term_range 36 36 = .ok p) ∧
    (∃ m, normalize_term_to_standard 5 = .ok m) :=
  ⟨(C4_invalid_argument.1 (-1)).mpr (by decide),
   C4_invalid_argument.2.1 10 5 (by decide),
   C4_invalid_argument.2.2.1 36 36 (by decide) (by decide),
   C4_invalid_argument.2.2.2 5 (by decide)⟩

/-- C7: `normalize_term_to_standard 0` returns 36, which is the smallest
member of the standard set (the special case branches before the scan). -/
theorem C7_zero_special_case :
    normalize_term_to_standard 0 = .ok 36 ∧
      36 ∈ INDUSTRY_STANDARD_TERMS ∧ ∀ t ∈ INDUSTRY_STANDARD_TERMS, 36 ≤ t :=
  ⟨rfl, by decide, by decide⟩

/-- C8: every standard term is a fixed point, and every non-negative term
normalizes into the standard set, hence normalization is idempotent. -/
theorem C8_idempotent :
    (∀ t ∈ INDUSTRY_STANDARD_TERMS, normalize_term_to_standard t = .ok t) ∧
    (∀ t : Int, 0 ≤ t → ∃ m, normalize_term_to_standard t = .ok m ∧
       m ∈ INDUSTRY_STANDARD_TERMS ∧ normalize_term_to_standard m = .ok m) := by
  constructor
  · exact norm_fixed_point
  · intro t ht
    exact ⟨normClosed t, normalize_eq_closed t ht, normClosed_mem t,
      norm_fixed_point _ (normClosed_mem t)⟩

/-- Witness for C8 at the fixed point 48 and at 66 (which maps to 60). -/
theorem C8_idempotent_witness :
    normalize_term_to_standard 48 = .ok 48 ∧
    (∃ m, normalize_term_to_standard 66 = .ok m ∧
       m ∈ INDUSTRY_STANDARD_TERMS ∧ normalize_term_to_standard m = .ok m) :=
  ⟨C8_idempotent.1 48 (by decide), C8_idempotent.2 66 (by decide)⟩

/-- C9: the info dictionary is internally consistent and consistent with
`is_standard_term`: `wasModified ↔ distance ≠ 0`, `¬wasModified ↔ standard`,
and at 0 the distance is 36 with `wasModified` true. -/
theorem C9_info_consistent (t : Int) (ht : 0 ≤ t) :
    ∃ info, get_term_normalization_info t = .ok info ∧
      (info.wasModified = true ↔ info.distance ≠ 0) ∧
      (info.wasModified = false ↔ is_standard_term t = true) ∧
      (t = 0 → info.distance = 36 ∧ info.wasModified = true) := by
  refine ⟨⟨t, normClosed t, (t - normClosed t).natAbs, t != normClosed t⟩,
    ?_, ?_, ?_, ?_⟩
  · unfold get_term_normalization_info
    rw [normalize_eq_closed t ht]
  · simp only [bne_iff_ne, ne_eq]
    omega
  · have hstd : is_standard_term t = true ↔
        (t = 36 ∨ t = 48 ∨ t = 60 ∨ t = 72 ∨ t = 84) := by
      simp [is_standard_term, INDUSTRY_STANDARD_TERMS, List.contains]
    rw [hstd]
    simp only [bne_eq_false_iff_eq]
    unfold normClosed
    split_ifs <;> omega
  · intro h0
    subst h0
    exact ⟨rfl, rfl⟩

/-- Witness for C9 at t = 0. -/
theorem C9_info_consistent_witness :
    ∃ info, get_term_normalization_info 0 = .ok info ∧
      (info.wasModified = true ↔ info.distance ≠ 0) ∧
      (info.wasModified = false ↔ is_standard_term 0 = true) ∧
      ((0:Int) = 0 → info.distance = 36 ∧ info.wasModified = true) :=
  C9_info_consistent 0 (by decide)

/-- C10: the normalizer clamps: every term in (0, 41] maps to 36, and every
term ≥ 79 (unbounded above) maps to 84. -/
theorem C10_clamps (t : Int) :
    (0 < t → t ≤ 41 → normalize_term_to_standard t = .ok 36) ∧
    (79 ≤ t → normalize_term_to_standard t = .ok 84) := by
  constructor
  · intro h1 h2
    rw [normalize_eq_closed t (by omega)]
    unfold normClosed
    split_ifs <;> first | rfl | (exfalso; omega)
  · intro h1
    rw [normalize_eq_closed t (by omega)]
    unfold normClosed
    split_ifs <;> first | rfl | (exfalso; omega)

/-- Witness for C10 at 41 and 100. -/
theorem C10_clamps_witness :
    normalize_term_to_standard 41 = .ok 36 ∧
    normalize_term_to_standard 100 = .ok 84 :=
  ⟨(C10_clamps 41).1 (by decide) (by decide), (C10_clamps 100).2 (by decide)⟩

theorem range_ok_shape (a b a' b' : Int)
    (h : normalize_term_range a b = .ok (a', b')) :
    normalize_term_to_standard a = .ok a' ∧
      normalize_term_to_standard b = .ok b' := by
  unfold normalize_term_range at h
  by_cases hba : a > b
  · rw [if_pos hba] at h
    exact Except.noConfusion h
  · rw [if_neg hba] at h
    rcases hA : normalize_term_to_standard a with eA | nA <;>
      rcases hB : normalize_term_to_standard b with eB | nB <;>
        simp only [hA, hB, Except.ok.injEq, Prod.mk.injEq] at h
    · exact Except.noConfusion h
    · exact Except.noConfusion h
    · exact Except.noConfusion h
    · obtain ⟨h1, h2⟩ := h
      subst h1
      subst h2
      exact ⟨rfl, rfl⟩

/-- C2: `normalize_rate_terms` dispatch. When `termMonths` is present (taking
precedence over any range fields), both bounds are its normalization; when it
is absent and both `termMin`/`termMax` are present, the bounds are the two
normalizations; the label is `"{min} Months"` for equal bounds, else
`"{min}-{max} Months"`. -/
theorem C2_record_dispatch (r : Record) :
    (∀ n m : Int, lookup r "termMonths" = some (.vint n) →
       normalize_term_to_standard n = .ok m →
       ∃ out, normalize_rate_terms r = .ok out ∧
         lookup out "term_range_min" = some (.vint m) ∧
         lookup out "term_range_max" = some (.vint m) ∧
         lookup out "term_label" = some (.vstr (toString m ++ " Months"))) ∧
    (containsKey r "termMonths" = false →
     ∀ a b a' b' : Int, lookup r "termMin" = some (.vint a) →
       lookup r "termMax" = some (.vint b) →
       normalize_term_range a b = .ok (a', b') →
       normalize_term_to_standard a = .ok a' ∧
       normalize_term_to_standard b = .ok b' ∧
       ∃ out, normalize_rate_terms r = .ok out ∧
         lookup out "term_range_min" = some (.vint a') ∧
         lookup out "term_range_max" = some (.vint b') ∧
         lookup out "term_label" = some (.vstr (if a' = b' then
           toString a' ++ " Months"
           else toString a' ++ "-" ++ toString b' ++ " Months"))) := by
  constructor
  · intro n m hn hm
    have hc : containsKey r "termMonths" = true := containsKey_of_lookup r _ _ hn
    refine ⟨addTermFields r m m, ?_, lookup_addTermFields_min r m m,
      lookup_addTermFields_max r m m, ?_⟩
    · unfold normalize_rate_terms
      rw [if_pos hc]
      simp only [hn, hm]
    · rw [lookup_addTermFields_label]
      simp [term_label_of]
  · intro hc a b a' b' ha hb hr
    have hmin : containsKey r "termMin" = true := containsKey_of_lookup r _ _ ha
    have hmax : containsKey r "termMax" = true := containsKey_of_lookup r _ _ hb
    obtain ⟨hA, hB⟩ := range_ok_shape a b a' b' hr
    refine ⟨hA, hB, addTermFields r a' b', ?_,
      lookup_addTermFields_min r a' b', lookup_addTermFields_max r a' b', ?_⟩
    · unfold normalize_rate_terms
      rw [if_neg (by simp [hc]), if_pos (by simp [hmin, hmax])]
      simp only [ha, hb, hr]
    · rw [lookup_addTermFields_label]
      rfl

/-- Witness for C2 on the record {termMonths: 66, apr: "5.99"}. -/
theorem C2_record_dispatch_witness :
    ∃ out, normalize_rate_terms
        [("termMonths", Value.vint 66), ("apr", Value.vstr "5.99")] = .ok out ∧
      lookup out "term_range_min" = some (.vint 60) ∧
      lookup out "term_range_max" = some (.vint 60) ∧
      lookup out "term_label" = some (.vstr (toString (60:Int) ++ " Months")) :=
  (C2_record_dispatch [("termMonths", Value.vint 66), ("apr", Value.vstr "5.99")]).1
    66 60 (by decide) rfl

/-- C5: `normalize_rate_terms` raises the missing-field `ValueError` exactly
when the record has neither `termMonths` nor the complete `termMin`/`termMax`
pair, and that error value differs from every error the term and range
normalizers raise on invalid arguments. -/
theorem C5_missing_field (r : Record) :
    (normalize_rate_terms r = .error (.valueError missingFieldMessage) ↔
      containsKey r "termMonths" = false ∧
        (containsKey r "termMin" = false ∨ containsKey r "termMax" = false)) ∧
    (∀ t : Int, t < 0 →
      normalize_term_to_standard t ≠ .error (.valueError missingFieldMessage)) ∧
    (∀ a b : Int, b < a →
      normalize_term_range a b ≠ .error (.valueError missingFieldMessage)) := by
  refine ⟨⟨?_, ?_⟩, ?_, ?_⟩
  · intro h
    unfold normalize_rate_terms at h
    by_cases hM : containsKey r "termMonths" = true
    · exfalso
      rw [if_pos hM] at h
      rcases hv : lookup r "termMonths" with _ | v
      · simp only [hv] at h
        exact PyErr.noConfusion (Except.error.inj h)
      · rcases v with n | s
        · rcases hn : normalize_term_to_standard n with e | m <;>
            simp only [hv, hn] at h
          · exact term_error_ne_missing n e hn (Except.error.inj h)
          · exact Except.noConfusion h
        · simp only [hv] at h
          exact PyErr.noConfusion (Except.error.inj h)
    · rw [if_neg hM] at h
      by_cases hmm : (containsKey r "termMin" && containsKey r "termMax") = true
      · exfalso
        rw [if_pos hmm] at h
        rcases hv1 : lookup r "termMin" with _ | v1
        · simp only [hv1] at h
          exact PyErr.noConfusion (Except.error.inj h)
        · rcases hv2 : lookup r "termMax" with _ | v2
          · rcases v1 with n1 | s1 <;> simp only [hv1, hv2] at h <;>
              exact PyErr.noConfusion (Except.error.inj h)
          · rcases v1 with n1 | s1
            · rcases v2 with n2 | s2
              · rcases hr : normalize_term_range n1 n2 with e | p
                · simp only [hv1, hv2, hr] at h
                  exact range_error_ne_missing n1 n2 e hr (Except.error.inj h)
                · obtain ⟨p1, p2⟩ := p
                  simp only [hv1, hv2, hr] at h
                  exact Except.noConfusion h
              · simp only [hv1, hv2] at h
                exact PyErr.noConfusion (Except.error.inj h)
            · simp only [hv1, hv2] at h
              exact PyErr.noConfusion (Except.error.inj h)
      · refine ⟨by simpa using hM, ?_⟩
        by_cases h1 : containsKey r "termMin" = true
        · right
          by_cases h2 : containsKey r "termMax" = true
          · exact absurd (by rw [h1, h2]; rfl) hmm
          · simpa using h2
        · left
          simpa using h1
  · rintro ⟨h1, h2⟩
    unfold normalize_rate_terms
    rw [if_neg (by simp [h1])]
    rcases h2 with h2 | h2 <;> rw [if_neg (by simp [h2])]
  · intro t ht h
    exact term_error_ne_missing t _ h rfl
  · intro a b hba h
    exact range_error_ne_missing a b _ h rfl

/-- Witness for C5 on the record {apr: "3.5"}, which has no term fields. -/
theorem C5_missing_field_witness :
    normalize_rate_terms [("apr", Value.vstr "3.5")] =
      .error (.valueError missingFieldMessage) :=
  (C5_missing_field [("apr", Value.vstr "3.5")]).1.mpr
    ⟨by decide, Or.inl (by decide)⟩

/-- C6: on success, `normalize_rate_terms` only adds or overwrites the three
fields `term_range_min`, `term_range_max`, `term_label`; every other key of
the input — including `termMonths`/`termMin`/`termMax` — keeps its original
lookup result in the output record. -/
theorem C6_frame (r out : Record) (h : normalize_rate_terms r = .ok out)
    (k : String) (h1 : k ≠ "term_range_min") (h2 : k ≠ "term_range_max")
    (h3 : k ≠ "term_label") :
    lookup out k = lookup r k := by
  unfold normalize_rate_terms at h
  by_cases hM : containsKey r "termMonths" = true
  · rw [if_pos hM] at h
    rcases hv : lookup r "termMonths" with _ | v
    · simp only [hv] at h
      exact Except.noConfusion h
    · rcases v with n | s
      · rcases hn : normalize_term_to_standard n with e | m <;>
          simp only [hv, hn] at h
        · exact Except.noConfusion h
        · rw [← Except.ok.inj h]
          exact lookup_addTermFields_frame r m m k h1 h2 h3
      · simp only [hv] at h
        exact Except.noConfusion h
  · rw [if_neg hM] at h
    by_cases hmm : (containsKey r "termMin" && containsKey r "termMax") = true
    · rw [if_pos hmm] at h
      rcases hv1 : lookup r "termMin" with _ | v1
      · simp only [hv1] at h
        exact Except.noConfusion h
      · rcases hv2 : lookup r "termMax" with _ | v2
        · rcases v1 with n1 | s1 <;> simp only [hv1, hv2] at h <;>
            exact Except.noConfusion h
        · rcases v1 with n1 | s1
          · rcases v2 with n2 | s2
            · rcases hr : normalize_term_range n1 n2 with e | p
              · simp only [hv1, hv2, hr] at h
                exact Except.noConfusion h
              · obtain ⟨p1, p2⟩ := p
                simp only [hv1, hv2, hr] at h
                rw [← Except.ok.inj h]
                exact lookup_addTermFields_frame r p1 p2 k h1 h2 h3
            · simp only [hv1, hv2] at h
              exact Except.noConfusion h
          · simp only [hv1, hv2] at h
            exact Except.noConfusion h
    · rw [if_neg hmm] at h
      exact Except.noConfusion h

/-- Witness for C6: the `termMonths` and `apr` fields survive normalization
of {termMonths: 66, apr: "5.99"} unchanged. -/
theorem C6_frame_witness :
    lookup [("termMonths", Value.vint 66), ("apr", Value.vstr "5.99"),
        ("term_range_min", Value.vint 60), ("term_range_max", Value.vint 60),
        ("term_label", Value.vstr "60 Months")] "termMonths" =
      lookup [("termMonths", Value.vint 66), ("apr", Value.vstr "5.99")]
        "termMonths" :=
  C6_frame [("termMonths", Value.vint 66), ("apr", Value.vstr "5.99")]
    [("termMonths", Value.vint 66), ("apr", Value.vstr "5.99"),
     ("term_range_min", Value.vint 60), ("term_range_max", Value.vint 60),
     ("term_label", Value.vstr "60 Months")]
    rfl "termMonths" (by decide) (by decide) (by decide)

end NormalizeTerms
